import Mathlib

/-!
Verification of the SoundShare dynamic-criteria matching engine and playlist
materializer, shallowly embedded from `routes/unified_playlists.py`.

Songs are rows of the `songs` table (`database/models.py`): `file_path` is a
non-nullable string column, the numeric audio features and `year` are nullable
numeric columns (modelled uniformly as `Option ℚ`, since only order comparisons
against criteria bounds are ever performed on them), and `tags` is the
many-to-many tag relationship.

Criteria constraint payloads are JSON values (`include_criteria` /
`exclude_criteria` JSON columns, nullable); `PyVal` models the Python values
such a JSON document can decode to.  Python dictionaries preserve insertion
order and have unique keys; they are modelled as association lists.  A raised
`TypeError` inside the matcher is modelled as `Except.error ()`.
-/

deriving instance DecidableEq for Except

namespace SoundShare

/-- A tag row: integer primary key and optional `group_id` foreign key. -/
structure Tag where
  id : Int
  group_id : Option Int
deriving DecidableEq

/-- A song row, restricted to the fields the matcher reads.  `file_path` is a
non-nullable column, so it is a plain `String`; the numeric features are
nullable columns. -/
structure Song where
  id : Int
  tags : List Tag
  artist : Option String
  album : Option String
  genre : Option String
  file_path : String
  energy : Option ℚ
  valence : Option ℚ
  danceability : Option ℚ
  tempo : Option ℚ
  duration : Option ℚ
  year : Option ℚ
deriving DecidableEq

/-- A Python value decoded from the criteria JSON columns: numbers, booleans,
strings, `None`, lists and dicts (dicts as insertion-ordered association
lists with unique keys). -/
inductive PyVal where
  | pnum (q : ℚ)
  | pbool (b : Bool)
  | pstr (s : String)
  | pnone
  | plist (l : List PyVal)
  | pdict (d : List (String × PyVal))

/-- A `DynamicCriteria` row: the two JSON mapping columns (nullable, hence
`Option`; the matcher replaces `None` by `{}` via `or {}`). -/
structure Criteria where
  include_criteria : Option (List (String × PyVal))
  exclude_criteria : Option (List (String × PyVal))

/-- A `UnifiedPlaylist` row as read by `get_playlist_songs` and the
manual-song endpoints: the `manual_songs` relationship list, the
`dynamic_criteria` relationship list and the persisted `song_order` JSON list
of song ids. -/
structure UnifiedPlaylist where
  manual_songs : List Song
  dynamic_criteria : List Criteria
  song_order : List Int

/-- Python hashability of a value: lists and dicts are unhashable, so
`set(values)` raises `TypeError` on them; every other decoded JSON value is
hashable. -/
def PyVal.hashable : PyVal → Bool
  | .plist _ => false
  | .pdict _ => false
  | _ => true

/-- Python `==` between an `int` (a tag or group id) and a criteria entry:
numbers compare numerically, `True`/`False` equal `1`/`0`, every other type
compares unequal. -/
def pyEqInt (n : Int) : PyVal → Bool
  | .pnum q => decide ((n : ℚ) = q)
  | .pbool b => decide (n = (if b then 1 else 0))
  | _ => false

/-- Python `==` between an `Optional[str]` attribute and a criteria entry:
`None == None` is `True`, strings compare by content, everything else is
unequal (`==` between unrelated types never raises). -/
def pyEqOptStr (s : Option String) : PyVal → Bool
  | .pstr t => match s with
    | some u => decide (u = t)
    | none => false
  | .pnone => s.isNone
  | _ => false

/-- Python `s < v` for a numeric song value `s` and a bound `v`: numbers and
booleans compare numerically, any other bound type raises `TypeError`. -/
def pyLt (a : ℚ) : PyVal → Except Unit Bool
  | .pnum q => .ok (decide (a < q))
  | .pbool b => .ok (decide (a < (if b then 1 else 0)))
  | _ => .error ()

/-- Python `s > v` for a numeric song value `s` and a bound `v`. -/
def pyGt (a : ℚ) : PyVal → Except Unit Bool
  | .pnum q => .ok (decide (q < a))
  | .pbool b => .ok (decide ((if b then (1 : ℚ) else 0) < a))
  | _ => .error ()

/-- Python `dict.get(k)`: the value stored at `k`, or `None` when absent
(an explicitly stored JSON `null` is likewise `None`). -/
def dictGet (d : List (String × PyVal)) (k : String) : PyVal :=
  match d.lookup k with
  | some v => v
  | none => .pnone

/-- Python substring containment `pat in hay` for two strings. -/
def strContains (hay pat : String) : Bool :=
  decide (pat.toList <:+: hay.toList)

/-- Drop trailing `/` characters, as `str.rstrip("/")` does. -/
def dropTrailingSlashes (l : List Char) : List Char :=
  (l.reverse.dropWhile (fun c => c = '/')).reverse

/-- `os.path.dirname` for POSIX paths: everything up to the last `/`, with
trailing slashes stripped unless the head consists only of slashes; `""` when
there is no slash at all. -/
def posixDirname (p : String) : String :=
  let cs := p.toList
  match cs.reverse.findIdx? (fun c => c = '/') with
  | none => ""
  | some r =>
      let head := cs.take (cs.length - r)
      if head.all (fun c => c = '/') then String.mk head
      else String.mk (dropTrailingSlashes head)

/-- Python `str.rstrip("s")`: drop trailing `s` characters (turns `"artists"`
into `"artist"`, `"albums"` into `"album"`, `"genres"` into `"genre"`). -/
def rstripS (f : String) : String :=
  String.mk ((f.toList.reverse.dropWhile (fun c => c = 's')).reverse)

/-- `getattr(song, name, None)` for the singular string metadata fields. -/
def Song.strField (s : Song) : String → Option String
  | "artist" => s.artist
  | "album" => s.album
  | "genre" => s.genre
  | _ => none

/-- `getattr(song, field, None)` for the numeric feature fields. -/
def Song.numField (s : Song) : String → Option ℚ
  | "energy" => s.energy
  | "valence" => s.valence
  | "danceability" => s.danceability
  | "tempo" => s.tempo
  | "duration" => s.duration
  | "year" => s.year
  | _ => none

/-- `{tag.group_id for tag in song.tags if tag.group_id}`: the group ids of
the song's tags, dropping `None` and (by Python truthiness) `0`. -/
def Song.groupIds (s : Song) : List Int :=
  (s.tags.filterMap Tag.group_id).filter (fun g => g ≠ 0)

/-- The field-kinds the matcher recognizes; any other key falls through to
the final `return False`. -/
def recognizedFields : List String :=
  ["tags", "tag_groups", "artists", "albums", "genres", "folders", "paths",
   "energy", "valence", "danceability", "tempo", "duration", "year"]

/-- The generator loop of `any(pattern in song.file_path for pattern in
values)`: short-circuits at the first matching pattern, raises `TypeError`
at the first non-string pattern. -/
def pathsAny (fp : String) : List PyVal → Except Unit Bool
  | [] => .ok false
  | v :: rest =>
      match v with
      | .pstr pat => if strContains fp pat then .ok true else pathsAny fp rest
      | _ => .error ()

/-- `min_val is not None and song_value < min_val`: the short-circuiting
`and` skips the comparison when the bound is absent. -/
def boundLt (v : ℚ) : PyVal → Except Unit Bool
  | .pnone => .ok false
  | m => pyLt v m

/-- `max_val is not None and song_value > max_val`. -/
def boundGt (v : ℚ) : PyVal → Except Unit Bool
  | .pnone => .ok false
  | m => pyGt v m

/-- The body of the numeric branch once `song_value is not None and
isinstance(values, dict)` holds: return `False` when the value falls below a
present `min` or above a present `max`, else `True`; a malformed bound
raises. -/
def rangeCheck (v : ℚ) (mn mx : PyVal) : Except Unit Bool :=
  boundLt v mn >>= fun belowMin =>
    if belowMin then .ok false
    else boundGt v mx >>= fun aboveMax =>
      if aboveMax then .ok false else .ok true

set_option linter.unusedVariables false

/-- `_song_matches_field_criteria(song, field, values, is_include)`.  The
`is_include` flag is accepted but, as in the source, never read.  `.error ()`
models a raised `TypeError` (unhashable entry of a list constraint,
non-string `paths` pattern, non-numeric range bound). -/
def songMatchesFieldCriteria (song : Song) (field : String) (values : PyVal)
    (is_include : Bool) : Except Unit Bool :=
  if field = "tags" then
    match values with
    | .plist l =>
        if l.all PyVal.hashable then
          .ok (song.tags.any (fun t => l.any (pyEqInt t.id)))
        else .error ()
    | _ => .ok false
  else if field = "tag_groups" then
    match values with
    | .plist l =>
        if l.all PyVal.hashable then
          .ok (song.groupIds.any (fun g => l.any (pyEqInt g)))
        else .error ()
    | _ => .ok false
  else if field = "artists" ∨ field = "albums" ∨ field = "genres" then
    match values with
    | .plist l => .ok (l.any (pyEqOptStr (song.strField (rstripS field))))
    | _ => .ok false
  else if field = "folders" then
    let song_folder := if song.file_path ≠ "" then posixDirname song.file_path else ""
    match values with
    | .plist l => .ok (l.any (pyEqOptStr (some song_folder)))
    | _ => .ok false
  else if field = "paths" then
    match values with
    | .plist l => pathsAny song.file_path l
    | _ => .ok false
  else if field ∈ ["energy", "valence", "danceability", "tempo", "duration", "year"] then
    match song.numField field, values with
    | some v, .pdict d => rangeCheck v (dictGet d "min") (dictGet d "max")
    | _, _ => .ok false
  else
    .ok false

/-- The include loop of `_song_matches_criteria`: every include field-kind
must match; the loop returns `False` at the first failing kind without
evaluating the rest. -/
def checkIncl (song : Song) : List (String × PyVal) → Except Unit Bool
  | [] => .ok true
  | (f, v) :: rest => do
      let b ← songMatchesFieldCriteria song f v true
      if b then checkIncl song rest else .ok false

/-- The exclude loop of `_song_matches_criteria`: the song is rejected at the
first exclude field-kind that matches. -/
def checkExcl (song : Song) : List (String × PyVal) → Except Unit Bool
  | [] => .ok true
  | (f, v) :: rest => do
      let b ← songMatchesFieldCriteria song f v false
      if b then .ok false else checkExcl song rest

/-- `_song_matches_criteria(song, criteria)`: include loop, then exclude
loop (`criteria.include_criteria or {}` turns a `NULL` column into `{}`). -/
def songMatchesCriteria (song : Song) (criteria : Criteria) : Except Unit Bool := do
  let ok ← checkIncl song (criteria.include_criteria.getD [])
  if ok then checkExcl song (criteria.exclude_criteria.getD [])
  else .ok false

/-- `_apply_dynamic_criteria(songs, criteria)`: the songs matching the
criteria, in the order of `songs`. -/
def applyDynamicCriteria (songs : List Song) (criteria : Criteria) :
    Except Unit (List Song) :=
  match songs with
  | [] => .ok []
  | s :: rest => do
      let b ← songMatchesCriteria s criteria
      let r ← applyDynamicCriteria rest criteria
      .ok (if b then s :: r else r)

/-- The `dynamic_songs` accumulation loop of `get_playlist_songs`: the
per-criteria match lists, concatenated (the Python `set.update` only
deduplicates, which the id-set formed later absorbs). -/
def collectDynamic (all_songs : List Song) : List Criteria → Except Unit (List Song)
  | [] => .ok []
  | c :: cs => do
      let m ← applyDynamicCriteria all_songs c
      let r ← collectDynamic all_songs cs
      .ok (m ++ r)

/-- The ordering loop of `get_playlist_songs`: walk `song_order`; an id found
in the working `songs_by_id` association list is emitted and its entry
deleted (so a duplicate occurrence is not emitted again), an id not found is
silently dropped.  Returns the emitted songs and the remaining entries (in
their original insertion order, as Python dict deletion preserves order). -/
def emitOrdered : List Int → List (Int × Song) → List Song × List (Int × Song)
  | [], m => ([], m)
  | i :: rest, m =>
      match m.lookup i with
      | some s =>
          let r := emitOrdered rest (m.eraseP (fun p => p.1 == i))
          (s :: r.1, r.2)
      | none => emitOrdered rest m

/-- The id set of the accumulated dynamic song set,
`{song.id for song in dynamic_songs}`. -/
def dynIds (dyn : List Song) : Finset Int := (dyn.map Song.id).toFinset

/-- `manual_song_ids = {song.id for song in playlist.manual_songs}`. -/
def manualIds (pl : UnifiedPlaylist) : Finset Int :=
  (pl.manual_songs.map Song.id).toFinset

/-- `songs_by_id = {song.id: song for song in all_songs if song.id in
all_song_ids}`, as an insertion-ordered association list. -/
def eligibleEntries (all_songs : List Song) (elig : Finset Int) : List (Int × Song) :=
  (all_songs.filter (fun s => s.id ∈ elig)).map (fun s => (s.id, s))

/-- The response payload of `get_playlist_songs` (the echoed playlist object
is omitted: it is returned unchanged). -/
structure PlaylistSongsResult where
  songs : List Song
  manual_count : Nat
  dynamic_count : Nat
  total_count : Nat
deriving DecidableEq

/-- `get_playlist_songs` after the 404 check: evaluate every criteria over
the whole song table, union the matches with the manual songs, materialize
`song_order` against the eligible set, and report the counts.

Python's `dynamic_songs` is a set of ORM row objects; distinct rows carry
distinct primary-key ids, so the set and its id image have the same size and
the set is modelled by the `Finset` of its ids.  `songs_by_id` is a dict
keyed by id built in `all_songs` order; it is modelled by an association
list, which coincides with the dict whenever the ids of `all_songs` are
pairwise distinct (the primary-key invariant). -/
def getPlaylistSongs (all_songs : List Song) (playlist : UnifiedPlaylist) :
    Except Unit PlaylistSongsResult := do
  let dyn ← collectDynamic all_songs playlist.dynamic_criteria
  let dynamic_ids : Finset Int := dynIds dyn
  let manual_song_ids : Finset Int := manualIds playlist
  let all_song_ids : Finset Int := manual_song_ids ∪ dynamic_ids
  let songs_by_id := eligibleEntries all_songs all_song_ids
  let r := emitOrdered playlist.song_order songs_by_id
  let ordered_songs := r.1 ++ r.2.map Prod.snd
  .ok { songs := ordered_songs
        manual_count := manual_song_ids.card
        dynamic_count := dynamic_ids.card - (manual_song_ids ∩ dynamic_ids).card
        total_count := ordered_songs.length }

/-- `remove_manual_song` after its 404 checks, acting on the playlist row:
drop the song from the `manual_songs` relationship when present, and delete
`song_id` from `song_order` when present.  Python's `list.remove` deletes
only the FIRST occurrence, which `List.erase` mirrors. -/
def removeManualSong (playlist : UnifiedPlaylist) (song : Song) : UnifiedPlaylist :=
  let manual :=
    if song ∈ playlist.manual_songs then playlist.manual_songs.erase song
    else playlist.manual_songs
  let order :=
    if song.id ∈ playlist.song_order then playlist.song_order.erase song.id
    else playlist.song_order
  { playlist with manual_songs := manual, song_order := order }

/-- The range constraint `{min?, max?}` with numeric bounds, as a criteria
payload: an absent option is an absent key. -/
def mkRange (mn mx : Option ℚ) : PyVal :=
  .pdict ((mn.map (fun a => ("min", PyVal.pnum a))).toList ++
          (mx.map (fun b => ("max", PyVal.pnum b))).toList)

/-- Is this value a string?  (The shape `paths` entries must have to avoid a
`TypeError` from `pattern in song.file_path`.) -/
def PyVal.isStr : PyVal → Bool
  | .pstr _ => true
  | _ => false

/-- `isinstance(values, list)`. -/
def PyVal.isList : PyVal → Bool
  | .plist _ => true
  | _ => false

/-- `isinstance(values, dict)`. -/
def PyVal.isDict : PyVal → Bool
  | .pdict _ => true
  | _ => false

/-- Is this value acceptable as a range bound: a number, a boolean, or the
absent marker `None`? -/
def boundOk : PyVal → Bool
  | .pnum _ => true
  | .pbool _ => true
  | .pnone => true
  | _ => false

/-- Well-formedness of one constraint payload, constraining exactly the
branches of `_song_matches_field_criteria` that can raise: `tags` /
`tag_groups` list payloads hold only hashable entries (those two branches
call `set(values)`), `paths` list payloads hold only strings (`pattern in
song.file_path` needs a string pattern), and numeric-range dict payloads
hold only numeric/boolean/absent bounds.  The `artists` / `albums` /
`genres` / `folders` branches compare with `==` only and never raise, so
their payloads are unconstrained, as are unrecognized field-kinds and all
structurally mismatched payloads (which fall into non-matching branches). -/
def fieldValueSafe (field : String) (values : PyVal) : Bool :=
  if field = "tags" ∨ field = "tag_groups" then
    match values with
    | .plist l => l.all PyVal.hashable
    | _ => true
  else if field = "paths" then
    match values with
    | .plist l => l.all PyVal.isStr
    | _ => true
  else if field ∈ ["energy", "valence", "danceability", "tempo", "duration", "year"] then
    match values with
    | .pdict d => boundOk (dictGet d "min") && boundOk (dictGet d "max")
    | _ => true
  else
    true

/-- A criteria all of whose include and exclude payloads are well-formed in
the sense of `fieldValueSafe`. -/
def criteriaSafe (c : Criteria) : Bool :=
  (c.include_criteria.getD []).all (fun p => fieldValueSafe p.1 p.2) &&
  (c.exclude_criteria.getD []).all (fun p => fieldValueSafe p.1 p.2)

/-! Concrete songs and criteria used by examples, witnesses and
counterexamples. -/

/-- A song with the given id and no tags, metadata or numeric features. -/
def blankSong (n : Int) : Song :=
  { id := n, tags := [], artist := none, album := none, genre := none,
    file_path := "", energy := none, valence := none, danceability := none,
    tempo := none, duration := none, year := none }

/-- A song with the given id and the given (ungrouped) tag ids. -/
def taggedSong (n : Int) (ts : List Int) : Song :=
  { blankSong n with tags := ts.map (fun k => ⟨k, none⟩) }

/-- The criteria `{include: {tags: [...]}, exclude: {}}`. -/
def tagsCriteria (ts : List Int) : Criteria :=
  ⟨some [("tags", .plist (ts.map (fun k => .pnum (k : ℚ))))], some []⟩

/-- The ordered song list produced by `get_playlist_songs` once the
accumulated dynamic list is `dyn`. -/
def materializedSongs (all_songs : List Song) (pl : UnifiedPlaylist)
    (dyn : List Song) : List Song :=
  let sb := eligibleEntries all_songs (manualIds pl ∪ dynIds dyn)
  (emitOrdered pl.song_order sb).1 ++ (emitOrdered pl.song_order sb).2.map Prod.snd

/-- The specification-level dynamic id set: ids of the songs matching at
least one criteria. -/
def dynamicIdSet (all_songs : List Song) (cs : List Criteria) : Finset Int :=
  ((all_songs.filter
      (fun s => decide (∃ c ∈ cs, songMatchesCriteria s c = .ok true))).map
    Song.id).toFinset

/-- The entries of the JSON range object `{min?, max?}`. -/
def mkRangeEntries (mn mx : Option ℚ) : List (String × PyVal) :=
  (mn.map (fun a => ("min", PyVal.pnum a))).toList ++
  (mx.map (fun b => ("max", PyVal.pnum b))).toList

/-- Eligibility of a song for a playlist's materialized list: manually
added, or matching at least one of the playlist's criteria. -/
def eligPred (pl : UnifiedPlaylist) (s : Song) : Bool :=
  decide (s.id ∈ pl.manual_songs.map Song.id ∨
    ∃ c ∈ pl.dynamic_criteria, songMatchesCriteria s c = .ok true)

/-! ## Basic lemmas about the `Except`-valued loops -/

@[simp]
lemma ebind_ok {α β : Type} (a : α) (f : α → Except Unit β) :
    (Except.ok a : Except Unit α) >>= f = f a := rfl

@[simp]
lemma ebind_error {α β : Type} (e : Unit) (f : α → Except Unit β) :
    (Except.error e : Except Unit α) >>= f = .error e := rfl

/-- The include loop succeeds with `true` exactly when every listed
field-kind's predicate succeeds with `true`. -/
lemma checkIncl_ok_true_iff (song : Song) (l : List (String × PyVal)) :
    checkIncl song l = .ok true ↔
      ∀ p ∈ l, songMatchesFieldCriteria song p.1 p.2 true = .ok true := by
  induction l with
  | nil => simp [checkIncl]
  | cons hd tl ih =>
      obtain ⟨f, v⟩ := hd
      cases h : songMatchesFieldCriteria song f v true with
      | error e => simp [checkIncl, h]
      | ok b =>
          cases b with
          | true => simp [checkIncl, h, ih]
          | false => simp [checkIncl, h]

/-- The exclude loop succeeds with `true` (no exclusion) exactly when every
listed field-kind's predicate succeeds with `false`. -/
lemma checkExcl_ok_true_iff (song : Song) (l : List (String × PyVal)) :
    checkExcl song l = .ok true ↔
      ∀ p ∈ l, songMatchesFieldCriteria song p.1 p.2 false = .ok false := by
  induction l with
  | nil => simp [checkExcl]
  | cons hd tl ih =>
      obtain ⟨f, v⟩ := hd
      cases h : songMatchesFieldCriteria song f v false with
      | error e => simp [checkExcl, h]
      | ok b =>
          cases b with
          | true => simp [checkExcl, h]
          | false => simp [checkExcl, h, ih]

/-- The matcher answers `true` exactly when both loops do. -/
lemma songMatchesCriteria_ok_true_iff (song : Song) (c : Criteria) :
    songMatchesCriteria song c = .ok true ↔
      checkIncl song (c.include_criteria.getD []) = .ok true ∧
      checkExcl song (c.exclude_criteria.getD []) = .ok true := by
  cases h : checkIncl song (c.include_criteria.getD []) with
  | error e => simp [songMatchesCriteria, h]
  | ok b =>
      cases b with
      | true => simp [songMatchesCriteria, h]
      | false => simp [songMatchesCriteria, h]

/-- A total `Except Unit Bool` computation that is not `.ok true` is
`.ok false`. -/
lemma ne_ok_true_iff_ok_false {r : Except Unit Bool} (h : r ≠ .error ()) :
    r ≠ .ok true ↔ r = .ok false := by
  cases r with
  | error e => cases e; simp at h
  | ok b => cases b <;> simp

/-! ## Membership in the per-criteria and accumulated dynamic match lists -/

/-- A song is in `_apply_dynamic_criteria`'s output exactly when it is among
the scanned songs and the matcher answers `true` for it. -/
lemma mem_applyDynamicCriteria {songs : List Song} {c : Criteria} {l : List Song}
    (h : applyDynamicCriteria songs c = .ok l) (x : Song) :
    x ∈ l ↔ x ∈ songs ∧ songMatchesCriteria x c = .ok true := by
  induction songs generalizing l with
  | nil =>
      simp only [applyDynamicCriteria] at h
      cases h
      simp
  | cons s rest ih =>
      simp only [applyDynamicCriteria] at h
      cases hm : songMatchesCriteria s c with
      | error e => rw [hm] at h; simp at h
      | ok b =>
          rw [hm] at h
          cases hr : applyDynamicCriteria rest c with
          | error e => rw [hr] at h; simp at h
          | ok r =>
              rw [hr] at h
              simp only [ebind_ok] at h
              cases h
              have hrr := ih hr
              cases b with
              | true =>
                  simp only [if_true, List.mem_cons]
                  constructor
                  · intro hx
                    rcases hx with hx | hx
                    · exact ⟨Or.inl hx, hx ▸ hm⟩
                    · obtain ⟨h1, h2⟩ := hrr.mp hx
                      exact ⟨Or.inr h1, h2⟩
                  · rintro ⟨h1 | h1, h2⟩
                    · exact Or.inl h1
                    · exact Or.inr (hrr.mpr ⟨h1, h2⟩)
              | false =>
                  simp only [Bool.false_eq_true, if_false]
                  rw [hrr]
                  simp only [List.mem_cons]
                  constructor
                  · rintro ⟨h1, h2⟩
                    exact ⟨Or.inr h1, h2⟩
                  · rintro ⟨h1 | h1, h2⟩
                    · rw [h1, hm] at h2; simp at h2
                    · exact ⟨h1, h2⟩

/-- A song is in the accumulated dynamic list exactly when it is among the
scanned songs and matches at least one criteria of the list. -/
lemma mem_collectDynamic {all_songs : List Song} {cs : List Criteria} {l : List Song}
    (h : collectDynamic all_songs cs = .ok l) (x : Song) :
    x ∈ l ↔ ∃ c ∈ cs, x ∈ all_songs ∧ songMatchesCriteria x c = .ok true := by
  induction cs generalizing l with
  | nil =>
      simp only [collectDynamic] at h
      cases h
      simp
  | cons c cs ih =>
      simp only [collectDynamic] at h
      cases hm : applyDynamicCriteria all_songs c with
      | error e => rw [hm] at h; simp at h
      | ok m =>
          rw [hm] at h
          cases hr : collectDynamic all_songs cs with
          | error e => rw [hr] at h; simp at h
          | ok r =>
              rw [hr] at h
              simp only [ebind_ok] at h
              cases h
              simp only [List.mem_append, mem_applyDynamicCriteria hm, ih hr,
                List.mem_cons]
              constructor
              · rintro (⟨h1, h2⟩ | ⟨d, hd, h1, h2⟩)
                · exact ⟨c, Or.inl rfl, h1, h2⟩
                · exact ⟨d, Or.inr hd, h1, h2⟩
              · rintro ⟨d, rfl | hd, h1, h2⟩
                · exact Or.inl ⟨h1, h2⟩
                · exact Or.inr ⟨d, hd, h1, h2⟩

/-! ## The ordering loop is a permutation of the eligible entries -/

/-- `List.any` over a map, for a type-changing function. -/
lemma any_map_general {α β : Type} (f : α → β) (l : List α) (p : β → Bool) :
    (l.map f).any p = l.any (fun a => p (f a)) := by
  induction l with
  | nil => rfl
  | cons a t ih => simp [ih]

/-- A successful dict lookup splits the list: it is a permutation of the
found entry consed onto the list with that (first matching) entry deleted. -/
lemma lookup_eraseP_perm {m : List (Int × Song)} {i : Int} {s : Song}
    (h : m.lookup i = some s) :
    List.Perm m ((i, s) :: m.eraseP (fun p => p.1 == i)) := by
  induction m with
  | nil => simp [List.lookup] at h
  | cons kv t ih =>
      obtain ⟨k, v⟩ := kv
      rw [List.lookup_cons] at h
      by_cases hk : i = k
      · subst hk
        simp only [beq_self_eq_true] at h
        cases h
        rw [List.eraseP_cons]
        simp
      · have hik : (i == k) = false := beq_false_of_ne hk
        rw [hik] at h
        rw [List.eraseP_cons]
        have hki : ((k, v).1 == i) = false := beq_false_of_ne (Ne.symm hk)
        simp only [hki, cond_false]
        exact ((ih h).cons (k, v)).trans (List.Perm.swap _ _ _)

/-- The songs emitted by the ordering loop followed by the leftover songs
are a permutation of the songs of the working association list. -/
lemma emitOrdered_perm (order : List Int) (m : List (Int × Song)) :
    List.Perm ((emitOrdered order m).1 ++ (emitOrdered order m).2.map Prod.snd)
      (m.map Prod.snd) := by
  induction order generalizing m with
  | nil => simp [emitOrdered]
  | cons i rest ih =>
      cases hl : m.lookup i with
      | none =>
          simp only [emitOrdered, hl]
          exact ih m
      | some s =>
          simp only [emitOrdered, hl, List.cons_append]
          exact ((ih _).cons s).trans
            ((lookup_eraseP_perm hl).map Prod.snd).symm

/-- Length form of `emitOrdered_perm`. -/
lemma emitOrdered_length (order : List Int) (m : List (Int × Song)) :
    ((emitOrdered order m).1 ++ (emitOrdered order m).2.map Prod.snd).length
      = m.length := by
  have := (emitOrdered_perm order m).length_eq
  simpa using this

/-! ## Characterizing a successful `get_playlist_songs` response -/

/-- When criteria evaluation succeeds, the endpoint's payload in closed
form. -/
lemma getPlaylistSongs_ok {all_songs : List Song} {pl : UnifiedPlaylist}
    {dyn : List Song} (h : collectDynamic all_songs pl.dynamic_criteria = .ok dyn) :
    getPlaylistSongs all_songs pl = .ok
      { songs := materializedSongs all_songs pl dyn
        manual_count := (manualIds pl).card
        dynamic_count := (dynIds dyn).card - (manualIds pl ∩ dynIds dyn).card
        total_count := (materializedSongs all_songs pl dyn).length } := by
  simp [getPlaylistSongs, h, materializedSongs]

/-- A successful response determines the accumulated dynamic list and the
payload fields. -/
lemma getPlaylistSongs_ok_elim {all_songs : List Song} {pl : UnifiedPlaylist}
    {r : PlaylistSongsResult} (h : getPlaylistSongs all_songs pl = .ok r) :
    ∃ dyn, collectDynamic all_songs pl.dynamic_criteria = .ok dyn ∧
      r = { songs := materializedSongs all_songs pl dyn
            manual_count := (manualIds pl).card
            dynamic_count := (dynIds dyn).card - (manualIds pl ∩ dynIds dyn).card
            total_count := (materializedSongs all_songs pl dyn).length } := by
  cases hc : collectDynamic all_songs pl.dynamic_criteria with
  | error e =>
      cases e
      rw [getPlaylistSongs, hc] at h
      simp at h
  | ok dyn =>
      refine ⟨dyn, rfl, ?_⟩
      rw [getPlaylistSongs_ok hc] at h
      exact (Except.ok.inj h).symm

/-- The association list's values are exactly the eligible songs in
`all_songs` order. -/
lemma eligibleEntries_map_snd (all_songs : List Song) (E : Finset Int) :
    (eligibleEntries all_songs E).map Prod.snd
      = all_songs.filter (fun s => s.id ∈ E) := by
  simp only [eligibleEntries, List.map_map]
  have h : (Prod.snd ∘ fun s : Song => (s.id, s)) = id := rfl
  rw [h, List.map_id]

/-- The materialized list is a permutation of the eligible songs. -/
lemma materializedSongs_perm (all_songs : List Song) (pl : UnifiedPlaylist)
    (dyn : List Song) :
    List.Perm (materializedSongs all_songs pl dyn)
      (all_songs.filter (fun s => s.id ∈ manualIds pl ∪ dynIds dyn)) := by
  unfold materializedSongs
  have h := emitOrdered_perm pl.song_order
    (eligibleEntries all_songs (manualIds pl ∪ dynIds dyn))
  rwa [eligibleEntries_map_snd] at h

/-- Primary-key injectivity: with pairwise-distinct ids, two listed songs
with the same id are the same song. -/
lemma id_inj_of_nodup {all_songs : List Song}
    (hnd : (all_songs.map Song.id).Nodup) {x y : Song}
    (hx : x ∈ all_songs) (hy : y ∈ all_songs) (hxy : x.id = y.id) : x = y :=
  List.inj_on_of_nodup_map hnd hx hy hxy

/-- With distinct ids, a listed song's id lies in the accumulated-dynamic id
set exactly when the song matches some criteria of the list. -/
lemma mem_dynIds_iff {all_songs : List Song} {cs : List Criteria}
    {dyn : List Song} (h : collectDynamic all_songs cs = .ok dyn)
    (hnd : (all_songs.map Song.id).Nodup) {s : Song} (hs : s ∈ all_songs) :
    s.id ∈ dynIds dyn ↔ ∃ c ∈ cs, songMatchesCriteria s c = .ok true := by
  unfold dynIds
  rw [List.mem_toFinset, List.mem_map]
  constructor
  · rintro ⟨y, hy, hid⟩
    obtain ⟨c, hc, hyall, hm⟩ := (mem_collectDynamic h y).mp hy
    have hys : y = s := id_inj_of_nodup hnd hyall hs hid
    exact ⟨c, hc, hys ▸ hm⟩
  · rintro ⟨c, hc, hm⟩
    exact ⟨s, (mem_collectDynamic h s).mpr ⟨c, hc, hs, hm⟩, rfl⟩

/-- The code's accumulated dynamic id set is the specification-level one. -/
lemma dynIds_eq {all_songs : List Song} {cs : List Criteria} {dyn : List Song}
    (h : collectDynamic all_songs cs = .ok dyn) :
    dynIds dyn = dynamicIdSet all_songs cs := by
  ext i
  simp only [dynIds, dynamicIdSet, List.mem_toFinset, List.mem_map,
    List.mem_filter, mem_collectDynamic h, decide_eq_true_eq]
  constructor
  · rintro ⟨y, ⟨c, hc, hy, hm⟩, hid⟩
    exact ⟨y, ⟨hy, c, hc, hm⟩, hid⟩
  · rintro ⟨y, ⟨hy, c, hc, hm⟩, hid⟩
    exact ⟨y, ⟨c, hc, hy, hm⟩, hid⟩

/-- Filtering a distinct-id song list down to a known id set `E` keeps
exactly `E.card` songs, provided every member of `E` is a listed id. -/
lemma filter_mem_length {all_songs : List Song} {E : Finset Int}
    (hnd : (all_songs.map Song.id).Nodup)
    (hE : ∀ i ∈ E, i ∈ all_songs.map Song.id) :
    (all_songs.filter (fun s => s.id ∈ E)).length = E.card := by
  have h1 : (all_songs.map Song.id).filter (fun i => decide (i ∈ E))
      = (all_songs.filter (fun s => s.id ∈ E)).map Song.id := by
    rw [List.filter_map]
    rfl
  have h2 : ((all_songs.map Song.id).filter (fun i => decide (i ∈ E))).length
      = (all_songs.filter (fun s => s.id ∈ E)).length := by
    rw [h1, List.length_map]
  rw [← h2]
  have h3 := List.Nodup.filter (fun i => decide (i ∈ E)) hnd
  rw [← List.toFinset_card_of_nodup h3, List.toFinset_filter]
  have h4 : (all_songs.map Song.id).toFinset.filter (fun i => decide (i ∈ E) = true)
      = (all_songs.map Song.id).toFinset ∩ E := by
    simp only [decide_eq_true_eq]
    exact Finset.filter_mem_eq_inter
  rw [h4, Finset.inter_eq_right.mpr]
  intro i hi
  rw [List.mem_toFinset]
  exact hE i hi

/-! ## Exception-freedom under well-formed constraint payloads -/

/-- A `paths` payload of strings is scanned without raising. -/
lemma pathsAny_ok (fp : String) (l : List PyVal) (h : l.all PyVal.isStr = true) :
    ∃ b, pathsAny fp l = .ok b := by
  induction l with
  | nil => exact ⟨false, rfl⟩
  | cons v t ih =>
      simp only [List.all_cons, Bool.and_eq_true] at h
      obtain ⟨hv, ht⟩ := h
      cases v with
      | pstr p =>
          by_cases hc : strContains fp p
          · exact ⟨true, by simp [pathsAny, hc]⟩
          · obtain ⟨b, hb⟩ := ih ht
            exact ⟨b, by simp [pathsAny, hc, hb]⟩
      | pnum q => simp [PyVal.isStr] at hv
      | pbool b => simp [PyVal.isStr] at hv
      | pnone => simp [PyVal.isStr] at hv
      | plist l2 => simp [PyVal.isStr] at hv
      | pdict d => simp [PyVal.isStr] at hv

/-- A range check against numeric, boolean or absent bounds does not
raise. -/
lemma boundLt_ok (v : ℚ) (m : PyVal) (h : boundOk m = true) :
    ∃ b, boundLt v m = .ok b := by
  cases m with
  | pnum a => exact ⟨_, rfl⟩
  | pbool b => exact ⟨_, rfl⟩
  | pnone => exact ⟨false, rfl⟩
  | pstr t => simp [boundOk] at h
  | plist l => simp [boundOk] at h
  | pdict d => simp [boundOk] at h

lemma boundGt_ok (v : ℚ) (m : PyVal) (h : boundOk m = true) :
    ∃ b, boundGt v m = .ok b := by
  cases m with
  | pnum a => exact ⟨_, rfl⟩
  | pbool b => exact ⟨_, rfl⟩
  | pnone => exact ⟨false, rfl⟩
  | pstr t => simp [boundOk] at h
  | plist l => simp [boundOk] at h
  | pdict d => simp [boundOk] at h

lemma rangeCheck_ok (v : ℚ) (mn mx : PyVal) (hmn : boundOk mn = true)
    (hmx : boundOk mx = true) : ∃ b, rangeCheck v mn mx = .ok b := by
  obtain ⟨b1, hb1⟩ := boundLt_ok v mn hmn
  obtain ⟨b2, hb2⟩ := boundGt_ok v mx hmx
  unfold rangeCheck
  rw [hb1]
  simp only [ebind_ok]
  cases b1 with
  | true => exact ⟨false, rfl⟩
  | false =>
      simp only [Bool.false_eq_true, if_false]
      rw [hb2]
      simp only [ebind_ok]
      cases b2 with
      | true => exact ⟨false, rfl⟩
      | false => exact ⟨true, rfl⟩

/-- A well-formed constraint payload is evaluated without raising, for every
song, field-kind and include/exclude flag. -/
lemma songMatchesFieldCriteria_ok (s : Song) (f : String) (v : PyVal) (i : Bool)
    (h : fieldValueSafe f v = true) :
    ∃ b, songMatchesFieldCriteria s f v i = .ok b := by
  by_cases h1 : f = "tags"
  · subst h1
    cases v with
    | plist l =>
        simp [fieldValueSafe] at h
        have hall : l.all PyVal.hashable = true := by simpa using h
        refine ⟨s.tags.any (fun t => l.any (pyEqInt t.id)), ?_⟩
        simp only [songMatchesFieldCriteria, reduceIte]
        rw [if_pos hall]
    | pnum q => exact ⟨false, by simp [songMatchesFieldCriteria]⟩
    | pbool b => exact ⟨false, by simp [songMatchesFieldCriteria]⟩
    | pstr t => exact ⟨false, by simp [songMatchesFieldCriteria]⟩
    | pnone => exact ⟨false, by simp [songMatchesFieldCriteria]⟩
    | pdict d => exact ⟨false, by simp [songMatchesFieldCriteria]⟩
  by_cases h2 : f = "tag_groups"
  · subst h2
    cases v with
    | plist l =>
        simp [fieldValueSafe] at h
        have hall : l.all PyVal.hashable = true := by simpa using h
        refine ⟨s.groupIds.any (fun g => l.any (pyEqInt g)), ?_⟩
        simp only [songMatchesFieldCriteria, reduceIte]
        rw [if_neg h1, if_pos hall]
    | pnum q => exact ⟨false, by simp [songMatchesFieldCriteria]⟩
    | pbool b => exact ⟨false, by simp [songMatchesFieldCriteria]⟩
    | pstr t => exact ⟨false, by simp [songMatchesFieldCriteria]⟩
    | pnone => exact ⟨false, by simp [songMatchesFieldCriteria]⟩
    | pdict d => exact ⟨false, by simp [songMatchesFieldCriteria]⟩
  by_cases h3 : f = "artists" ∨ f = "albums" ∨ f = "genres"
  · have hrw : ∀ b : Bool, songMatchesFieldCriteria s f v i =
        (match v with
         | .plist l => .ok (l.any (pyEqOptStr (s.strField (rstripS f))))
         | _ => .ok false) := by
      intro b
      unfold songMatchesFieldCriteria
      rw [if_neg h1, if_neg h2, if_pos h3]
      cases v <;> rfl
    cases v with
    | plist l => exact ⟨_, hrw true⟩
    | pnum q => exact ⟨false, hrw true⟩
    | pbool b => exact ⟨false, hrw true⟩
    | pstr t => exact ⟨false, hrw true⟩
    | pnone => exact ⟨false, hrw true⟩
    | pdict d => exact ⟨false, hrw true⟩
  by_cases h4 : f = "folders"
  · have hrw : songMatchesFieldCriteria s f v i =
        (match v with
         | .plist l => .ok (l.any (pyEqOptStr (some
             (if s.file_path ≠ "" then posixDirname s.file_path else ""))))
         | _ => .ok false) := by
      unfold songMatchesFieldCriteria
      rw [if_neg h1, if_neg h2, if_neg h3, if_pos h4]
      cases v <;> rfl
    cases v with
    | plist l => exact ⟨_, hrw⟩
    | pnum q => exact ⟨false, hrw⟩
    | pbool b => exact ⟨false, hrw⟩
    | pstr t => exact ⟨false, hrw⟩
    | pnone => exact ⟨false, hrw⟩
    | pdict d => exact ⟨false, hrw⟩
  by_cases h5 : f = "paths"
  · subst h5
    cases v with
    | plist l =>
        simp only [fieldValueSafe] at h
        simp at h
        obtain ⟨b, hb⟩ := pathsAny_ok s.file_path l (by simpa using h)
        exact ⟨b, by simp [songMatchesFieldCriteria, hb]⟩
    | pnum q => exact ⟨false, by simp [songMatchesFieldCriteria]⟩
    | pbool b => exact ⟨false, by simp [songMatchesFieldCriteria]⟩
    | pstr t => exact ⟨false, by simp [songMatchesFieldCriteria]⟩
    | pnone => exact ⟨false, by simp [songMatchesFieldCriteria]⟩
    | pdict d => exact ⟨false, by simp [songMatchesFieldCriteria]⟩
  by_cases h6 : f ∈ ["energy", "valence", "danceability", "tempo", "duration", "year"]
  · unfold songMatchesFieldCriteria
    rw [if_neg h1, if_neg h2, if_neg h3, if_neg h4, if_neg h5, if_pos h6]
    cases hnf : s.numField f with
    | none =>
        cases v with
        | plist l => exact ⟨false, rfl⟩
        | pnum q => exact ⟨false, rfl⟩
        | pbool b => exact ⟨false, rfl⟩
        | pstr t => exact ⟨false, rfl⟩
        | pnone => exact ⟨false, rfl⟩
        | pdict d => exact ⟨false, rfl⟩
    | some x =>
        cases v with
        | pdict d =>
            unfold fieldValueSafe at h
            rw [if_neg (not_or.mpr ⟨h1, h2⟩), if_neg h5, if_pos h6] at h
            simp only [Bool.and_eq_true] at h
            exact rangeCheck_ok x _ _ h.1 h.2
        | plist l => exact ⟨false, rfl⟩
        | pnum q => exact ⟨false, rfl⟩
        | pbool b => exact ⟨false, rfl⟩
        | pstr t => exact ⟨false, rfl⟩
        | pnone => exact ⟨false, rfl⟩
  · refine ⟨false, ?_⟩
    unfold songMatchesFieldCriteria
    rw [if_neg h1, if_neg h2, if_neg h3, if_neg h4, if_neg h5, if_neg h6]

/-- Any field-kind the matcher does not recognize is non-matching, never an
error. -/
lemma songMatchesFieldCriteria_unrecognized (s : Song) (f : String) (v : PyVal)
    (i : Bool) (h : f ∉ recognizedFields) :
    songMatchesFieldCriteria s f v i = .ok false := by
  simp only [recognizedFields, List.mem_cons, List.mem_singleton, not_or] at h
  obtain ⟨n1, n2, n3, n4, n5, n6, n7, n8, n9, n10, n11, n12, n13⟩ := h
  unfold songMatchesFieldCriteria
  rw [if_neg n1, if_neg n2, if_neg (by tauto), if_neg n6, if_neg n7,
    if_neg (by simp [n8, n9, n10, n11, n12, n13])]

/-- A non-list payload for a list-type field-kind falls into the guarded
`isinstance` failure branch: non-matching, never an error. -/
lemma songMatchesFieldCriteria_list_mismatch (s : Song) (f : String) (v : PyVal)
    (i : Bool)
    (hf : f ∈ ["tags", "tag_groups", "artists", "albums", "genres", "folders", "paths"])
    (hv : v.isList = false) :
    songMatchesFieldCriteria s f v i = .ok false := by
  fin_cases hf <;> cases v <;> simp_all [songMatchesFieldCriteria, PyVal.isList]

/-- The numeric branch on a non-dict payload: non-matching, never an
error. -/
lemma range_mismatch_eval (s : Song) (f : String) (v : PyVal) (i : Bool)
    (h1 : ¬f = "tags") (h2 : ¬f = "tag_groups")
    (h3 : ¬(f = "artists" ∨ f = "albums" ∨ f = "genres")) (h4 : ¬f = "folders")
    (h5 : ¬f = "paths")
    (h6 : f ∈ ["energy", "valence", "danceability", "tempo", "duration", "year"])
    (hv : v.isDict = false) :
    songMatchesFieldCriteria s f v i = .ok false := by
  unfold songMatchesFieldCriteria
  rw [if_neg h1, if_neg h2, if_neg h3, if_neg h4, if_neg h5, if_pos h6]
  cases hnum : s.numField f with
  | none => cases v <;> rfl
  | some x =>
      cases v with
      | pdict d => simp [PyVal.isDict] at hv
      | plist l => rfl
      | pnum q => rfl
      | pbool b => rfl
      | pstr t => rfl
      | pnone => rfl

/-- A non-dict payload for a numeric field-kind falls into the guarded
`isinstance` failure branch: non-matching, never an error. -/
lemma songMatchesFieldCriteria_range_mismatch (s : Song) (f : String) (v : PyVal)
    (i : Bool)
    (hf : f ∈ ["energy", "valence", "danceability", "tempo", "duration", "year"])
    (hv : v.isDict = false) :
    songMatchesFieldCriteria s f v i = .ok false := by
  fin_cases hf <;>
    exact range_mismatch_eval s _ v i (by decide) (by decide) (by decide)
      (by decide) (by decide) (by decide) hv

/-- The include loop over well-formed payloads does not raise. -/
lemma checkIncl_ok (s : Song) (l : List (String × PyVal))
    (h : ∀ p ∈ l, fieldValueSafe p.1 p.2 = true) :
    ∃ b, checkIncl s l = .ok b := by
  induction l with
  | nil => exact ⟨true, rfl⟩
  | cons hd t ih =>
      obtain ⟨f, v⟩ := hd
      obtain ⟨b, hb⟩ := songMatchesFieldCriteria_ok s f v true (h _ (List.mem_cons_self _ _))
      cases b with
      | true =>
          obtain ⟨b2, h2⟩ := ih (fun p hp => h p (List.mem_cons_of_mem _ hp))
          exact ⟨b2, by simp [checkIncl, hb, h2]⟩
      | false => exact ⟨false, by simp [checkIncl, hb]⟩

/-- The exclude loop over well-formed payloads does not raise. -/
lemma checkExcl_ok (s : Song) (l : List (String × PyVal))
    (h : ∀ p ∈ l, fieldValueSafe p.1 p.2 = true) :
    ∃ b, checkExcl s l = .ok b := by
  induction l with
  | nil => exact ⟨true, rfl⟩
  | cons hd t ih =>
      obtain ⟨f, v⟩ := hd
      obtain ⟨b, hb⟩ := songMatchesFieldCriteria_ok s f v false (h _ (List.mem_cons_self _ _))
      cases b with
      | true => exact ⟨false, by simp [checkExcl, hb]⟩
      | false =>
          obtain ⟨b2, h2⟩ := ih (fun p hp => h p (List.mem_cons_of_mem _ hp))
          exact ⟨b2, by simp [checkExcl, hb, h2]⟩

/-- A criteria whose payloads are all well-formed is matched without
raising. -/
lemma songMatchesCriteria_ok (s : Song) (c : Criteria) (h : criteriaSafe c = true) :
    ∃ b, songMatchesCriteria s c = .ok b := by
  unfold criteriaSafe at h
  simp only [Bool.and_eq_true, List.all_eq_true] at h
  obtain ⟨hi, he⟩ := h
  obtain ⟨b1, hb1⟩ := checkIncl_ok s _ (fun p hp => hi p hp)
  cases b1 with
  | true =>
      obtain ⟨b2, hb2⟩ := checkExcl_ok s _ (fun p hp => he p hp)
      exact ⟨b2, by simp [songMatchesCriteria, hb1, hb2]⟩
  | false => exact ⟨false, by simp [songMatchesCriteria, hb1]⟩

/-! ## Evaluating the `tags` predicate and the numeric range predicate -/

/-- The `tags` predicate over a list of integer tag ids is the Boolean
intersection test between the song's tag-id set and the listed ids. -/
lemma tags_field_eq (s : Song) (ts : List Int) (i : Bool) :
    songMatchesFieldCriteria s "tags" (.plist (ts.map (fun n => .pnum (n : ℚ)))) i
      = .ok (s.tags.any (fun tg => decide (tg.id ∈ ts))) := by
  have hall : (ts.map (fun n => PyVal.pnum (n : ℚ))).all PyVal.hashable = true := by
    simp only [List.all_eq_true, List.mem_map]
    rintro x ⟨n, hn, rfl⟩
    rfl
  have hinner : ∀ tg : Tag,
      (ts.map (fun n => PyVal.pnum (n : ℚ))).any (pyEqInt tg.id)
        = decide (tg.id ∈ ts) := by
    intro tg
    rw [any_map_general]
    rw [Bool.eq_iff_iff]
    simp [pyEqInt]
  simp only [songMatchesFieldCriteria, reduceIte]
  rw [if_pos hall]
  congr 1
  refine congrArg _ (funext (fun tg => hinner tg))

lemma mkRange_eq_pdict (mn mx : Option ℚ) :
    mkRange mn mx = .pdict (mkRangeEntries mn mx) := rfl

lemma dictGet_mkRange_min (mn mx : Option ℚ) :
    dictGet (mkRangeEntries mn mx) "min"
      = (match mn with | some a => .pnum a | none => .pnone) := by
  cases mn <;> cases mx <;> rfl

lemma dictGet_mkRange_max (mn mx : Option ℚ) :
    dictGet (mkRangeEntries mn mx) "max"
      = (match mx with | some b => .pnum b | none => .pnone) := by
  cases mn <;> cases mx <;> rfl

/-- Range evaluation against optional numeric bounds is the inclusive
interval test. -/
lemma rangeCheck_bounds (v : ℚ) (mn mx : Option ℚ) :
    rangeCheck v (match mn with | some a => .pnum a | none => .pnone)
      (match mx with | some b => .pnum b | none => .pnone)
      = .ok (mn.all (fun a => decide (a ≤ v)) && mx.all (fun b => decide (v ≤ b))) := by
  cases mn with
  | none =>
      cases mx with
      | none => rfl
      | some b =>
          by_cases h : b < v
          · simp [rangeCheck, boundLt, boundGt, pyGt, h, not_le_of_lt h]
          · simp [rangeCheck, boundLt, boundGt, pyGt, h, le_of_not_lt h]
  | some a =>
      by_cases ha : v < a
      · cases mx with
        | none => simp [rangeCheck, boundLt, boundGt, pyLt, ha, not_le_of_lt ha]
        | some b => simp [rangeCheck, boundLt, boundGt, pyLt, ha, not_le_of_lt ha]
      · cases mx with
        | none => simp [rangeCheck, boundLt, boundGt, pyLt, pyGt, ha, le_of_not_lt ha]
        | some b =>
            by_cases hb : b < v
            · simp [rangeCheck, boundLt, boundGt, pyLt, pyGt, ha, hb,
                le_of_not_lt ha, not_le_of_lt hb]
            · simp [rangeCheck, boundLt, boundGt, pyLt, pyGt, ha, hb,
                le_of_not_lt ha, le_of_not_lt hb]

/-- The numeric branch of `_song_matches_field_criteria` on a range object:
defined song value within the inclusive bounds, undefined song value never
matches. -/
lemma numericBranch_eval (s : Song) (f : String) (mn mx : Option ℚ) (i : Bool)
    (h1 : ¬f = "tags") (h2 : ¬f = "tag_groups")
    (h3 : ¬(f = "artists" ∨ f = "albums" ∨ f = "genres")) (h4 : ¬f = "folders")
    (h5 : ¬f = "paths")
    (h6 : f ∈ ["energy", "valence", "danceability", "tempo", "duration", "year"]) :
    songMatchesFieldCriteria s f (mkRange mn mx) i
      = .ok (match s.numField f with
             | none => false
             | some v => mn.all (fun a => decide (a ≤ v)) &&
                         mx.all (fun b => decide (v ≤ b))) := by
  unfold songMatchesFieldCriteria
  rw [if_neg h1, if_neg h2, if_neg h3, if_neg h4, if_neg h5, if_pos h6]
  cases hnum : s.numField f with
  | none => rfl
  | some v =>
      show rangeCheck v (dictGet (mkRangeEntries mn mx) "min")
        (dictGet (mkRangeEntries mn mx) "max") = _
      rw [dictGet_mkRange_min, dictGet_mkRange_max, rangeCheck_bounds]

/-- The matcher on a criteria with a single include field-kind and empty
exclude reduces to that one field predicate. -/
lemma songMatchesCriteria_single (s : Song) (f : String) (v : PyVal) {b : Bool}
    (h : songMatchesFieldCriteria s f v true = .ok b) :
    songMatchesCriteria s ⟨some [(f, v)], some []⟩ = .ok b := by
  cases b with
  | true => simp [songMatchesCriteria, checkIncl, checkExcl, h]
  | false => simp [songMatchesCriteria, checkIncl, h]

/-! ## The order structure of the emitted list -/

/-- A successful dict lookup was over a stored entry. -/
lemma lookup_mem {m : List (Int × Song)} {i : Int} {s : Song}
    (h : m.lookup i = some s) : (i, s) ∈ m := by
  induction m with
  | nil => simp [List.lookup] at h
  | cons kv t ih =>
      obtain ⟨k, v⟩ := kv
      rw [List.lookup_cons] at h
      by_cases hk : i = k
      · subst hk
        simp only [beq_self_eq_true] at h
        cases h
        exact List.mem_cons_self _ _
      · rw [beq_false_of_ne hk] at h
        exact List.mem_cons_of_mem _ (ih h)

/-- A failed dict lookup means no stored entry has that key. -/
lemma lookup_eq_none_forall {m : List (Int × Song)} {i : Int}
    (h : m.lookup i = none) : ∀ p ∈ m, p.1 ≠ i := by
  induction m with
  | nil => simp
  | cons kv t ih =>
      obtain ⟨k, v⟩ := kv
      rw [List.lookup_cons] at h
      by_cases hk : i = k
      · subst hk
        simp only [beq_self_eq_true] at h
        cases h
      · rw [beq_false_of_ne hk] at h
        intro p hp
        rcases List.mem_cons.mp hp with rfl | hp
        · exact fun hc => hk hc.symm
        · exact ih h p hp

/-- When every stored id occurs at most once, deleting the first entry with
key `i` is filtering out the key `i`. -/
lemma eraseP_key_eq_filter {m : List (Int × Song)} {i : Int}
    (hnd : (m.map Prod.fst).Nodup) :
    m.eraseP (fun p => p.1 == i) = m.filter (fun p => decide (¬p.1 = i)) := by
  induction m with
  | nil => rfl
  | cons kv t ih =>
      obtain ⟨k, v⟩ := kv
      rw [List.map_cons, List.nodup_cons] at hnd
      obtain ⟨hknot, hndt⟩ := hnd
      rw [List.eraseP_cons]
      by_cases hk : k = i
      · subst hk
        simp only [beq_self_eq_true, cond_true, List.filter_cons,
          decide_not, decide_True, Bool.not_true, Bool.false_eq_true,
          if_false]
        symm
        rw [List.filter_eq_self]
        intro p hp
        simp only [decide_not, Bool.not_eq_true', decide_eq_false_iff_not]
        intro hpk
        have hpm : p.1 ∈ t.map Prod.fst := List.mem_map_of_mem Prod.fst hp
        rw [hpk] at hpm
        exact hknot hpm
      · have hbeq : ((k, v).1 == i) = false := beq_false_of_ne hk
        simp only [hbeq, cond_false]
        rw [List.filter_cons, if_pos (by simpa using hk)]
        rw [ih hndt]

/-- The ids emitted by the ordering loop occur in the stored order's own
sequence: they form a sublist of `song_order` (provided each entry's key is
its song's id, as `songs_by_id` guarantees). -/
lemma emitOrdered_fst_sublist (order : List Int) (m : List (Int × Song))
    (h : ∀ p ∈ m, p.1 = p.2.id) :
    List.Sublist ((emitOrdered order m).1.map Song.id) order := by
  induction order generalizing m with
  | nil => simp [emitOrdered]
  | cons i rest ih =>
      cases hl : m.lookup i with
      | none =>
          simp only [emitOrdered, hl]
          exact (ih m h).cons i
      | some s =>
          simp only [emitOrdered, hl, List.map_cons]
          have hsid : s.id = i := (h _ (lookup_mem hl)).symm
          rw [hsid]
          refine List.Sublist.cons₂ i (ih _ ?_)
          intro p hp
          exact h p ((List.eraseP_sublist m).subset hp)

/-- With pairwise-distinct keys, the entries left over after the ordering
loop are exactly those whose id `song_order` never mentions, in their
original sequence. -/
lemma emitOrdered_snd_eq_filter (order : List Int) (m : List (Int × Song))
    (hnd : (m.map Prod.fst).Nodup) :
    (emitOrdered order m).2 = m.filter (fun p => decide (p.1 ∉ order)) := by
  induction order generalizing m with
  | nil =>
      simp only [emitOrdered, List.not_mem_nil, not_false_iff, decide_True,
        List.filter_true]
  | cons i rest ih =>
      cases hl : m.lookup i with
      | none =>
          simp only [emitOrdered, hl]
          rw [ih m hnd]
          apply List.filter_congr
          intro p hp
          have hne := lookup_eq_none_forall hl p hp
          simp [List.mem_cons, hne]
      | some s =>
          simp only [emitOrdered, hl]
          have hsubnd : ((m.eraseP (fun p => p.1 == i)).map Prod.fst).Nodup :=
            List.Nodup.sublist ((List.eraseP_sublist m).map Prod.fst) hnd
          rw [ih _ hsubnd, eraseP_key_eq_filter hnd, List.filter_filter]
          apply List.filter_congr
          intro p hp
          rw [Bool.eq_iff_iff]
          simp [List.mem_cons, not_or, and_comm]

/-! ## Claim theorems -/

/-- **C3** For every song and each numeric field-kind (energy, valence,
danceability, tempo, duration, year) with a range constraint `{min?, max?}`,
the per-kind predicate is true exactly when the song's value for that field
is defined and lies within the inclusive bounds (an absent bound is
unbounded on that side); an undefined song value makes the predicate false,
identically on the include and exclude paths (the `is_include` flag is
universally quantified). -/
theorem c3_numeric_range_predicate (s : Song) (f : String)
    (hf : f ∈ ["energy", "valence", "danceability", "tempo", "duration", "year"])
    (mn mx : Option ℚ) (i : Bool) :
    songMatchesFieldCriteria s f (mkRange mn mx) i
      = .ok (match s.numField f with
             | none => false
             | some v => mn.all (fun a => decide (a ≤ v)) &&
                         mx.all (fun b => decide (v ≤ b))) := by
  fin_cases hf <;>
    exact numericBranch_eval s _ mn mx i (by decide) (by decide) (by decide)
      (by decide) (by decide) (by decide)

/-- Witness for C3: a song with energy `1` against `{min: 0, max: 2}` is
matched, and against `{min: 2}` it is not; a song with undefined energy
never matches a range. -/
theorem c3_numeric_range_predicate_witness :
    songMatchesFieldCriteria { blankSong 1 with energy := some 1 } "energy"
        (mkRange (some 0) (some 2)) true = .ok true ∧
    songMatchesFieldCriteria { blankSong 1 with energy := some 1 } "energy"
        (mkRange (some 2) none) true = .ok false ∧
    songMatchesFieldCriteria (blankSong 1) "energy"
        (mkRange (some 0) (some 2)) false = .ok false := by
  refine ⟨?_, ?_, ?_⟩
  · rw [c3_numeric_range_predicate _ _ (by decide) _ _ _]
    decide
  · rw [c3_numeric_range_predicate _ _ (by decide) _ _ _]
    decide
  · rw [c3_numeric_range_predicate _ _ (by decide) _ _ _]
    decide

/-- **C7** For every song `S` and tag id `t`, the criteria
`{include: {tags: [t]}, exclude: {}}` matches `S` exactly when `t` is among
`S`'s tag ids; in general the `tags` predicate over a list of tag ids is the
intersection test between the song's tag-id set and the list. -/
theorem c7_tags_predicate_intersection :
    (∀ (s : Song) (t : Int),
      songMatchesCriteria s (tagsCriteria [t]) = .ok true ↔
        ∃ tg ∈ s.tags, tg.id = t) ∧
    (∀ (s : Song) (ts : List Int) (i : Bool),
      songMatchesFieldCriteria s "tags" (.plist (ts.map (fun n => .pnum (n : ℚ)))) i
        = .ok (s.tags.any (fun tg => decide (tg.id ∈ ts)))) := by
  constructor
  · intro s t
    have hfield := tags_field_eq s [t] true
    have hm := songMatchesCriteria_single s "tags"
      (.plist ([t].map (fun n => .pnum (n : ℚ)))) hfield
    rw [show tagsCriteria [t]
        = ⟨some [("tags", .plist ([t].map (fun n => .pnum (n : ℚ))))], some []⟩ from rfl]
    rw [hm]
    simp [List.any_eq_true]
  · exact fun s ts i => tags_field_eq s ts i

/-- **C8** A criteria with empty include and empty exclude mappings matches
every song (vacuous truth over zero conjuncts), and an empty exclude mapping
excludes nothing: with empty exclude the matcher's verdict is exactly the
include loop's verdict, whatever the include mapping. -/
theorem c8_empty_criteria_vacuous :
    (∀ s : Song, songMatchesCriteria s ⟨some [], some []⟩ = .ok true) ∧
    (∀ (s : Song) (inc : Option (List (String × PyVal))),
      songMatchesCriteria s ⟨inc, some []⟩ = checkIncl s (inc.getD [])) := by
  constructor
  · intro s
    rfl
  · intro s inc
    cases h : checkIncl s (inc.getD []) with
    | error e => cases e; simp [songMatchesCriteria, h]
    | ok b => cases b <;> simp [songMatchesCriteria, h, checkExcl]

/-- **C9, counterexample** The claim "`matches(S, {include: {tags: []},
exclude: {}})` equals `matches(S, {include: {}, exclude: {}})`" is false: at
the concrete song with id 3 and no tags the left side is `ok false` and the
right side is `ok true`. -/
theorem c9_empty_list_vs_absent_counterexample :
    ¬ (songMatchesCriteria (blankSong 3) ⟨some [("tags", .plist [])], some []⟩
        = songMatchesCriteria (blankSong 3) ⟨some [], some []⟩) := by
  decide

/-- **C9, amended** An include field-kind present with an empty list yields a
false intersection predicate, so such a criteria matches NO song, whereas an
absent field-kind imposes no constraint: for every song,
`matches(S, {include: {tags: []}, exclude: {}})` is `false` while
`matches(S, {include: {}, exclude: {}})` is `true` — the two are never
equal, rather than always equal as claimed. -/
theorem c9_empty_include_list_matches_nothing (s : Song) :
    songMatchesCriteria s ⟨some [("tags", .plist [])], some []⟩ = .ok false ∧
    songMatchesCriteria s ⟨some [], some []⟩ = .ok true := by
  constructor
  · have hfield : songMatchesFieldCriteria s "tags" (.plist []) true = .ok false := by
      simp [songMatchesFieldCriteria]
    exact songMatchesCriteria_single s "tags" (.plist []) hfield
  · rfl

/-- **C1** For every song and criteria, the matcher answers true exactly when
every include field-kind's predicate is satisfied and no exclude field-kind's
predicate is satisfied (the iff is stated under the proviso that the exclude
predicates evaluate without raising, which the spec's pure-Boolean reading
presumes); and — unconditionally — a song satisfying any exclude clause is
never matched overall, include clauses notwithstanding. -/
theorem c1_include_conjunction_exclude_disjunction :
    (∀ (s : Song) (c : Criteria),
      (∀ p ∈ c.exclude_criteria.getD [],
        songMatchesFieldCriteria s p.1 p.2 false ≠ .error ()) →
      (songMatchesCriteria s c = .ok true ↔
        ((∀ p ∈ c.include_criteria.getD [],
            songMatchesFieldCriteria s p.1 p.2 true = .ok true) ∧
         (∀ p ∈ c.exclude_criteria.getD [],
            songMatchesFieldCriteria s p.1 p.2 false ≠ .ok true)))) ∧
    (∀ (s : Song) (c : Criteria) (p : String × PyVal),
      p ∈ c.exclude_criteria.getD [] →
      songMatchesFieldCriteria s p.1 p.2 false = .ok true →
      songMatchesCriteria s c ≠ .ok true) := by
  constructor
  · intro s c htot
    rw [songMatchesCriteria_ok_true_iff, checkIncl_ok_true_iff, checkExcl_ok_true_iff]
    constructor
    · rintro ⟨hi, he⟩
      refine ⟨hi, fun p hp => ?_⟩
      rw [he p hp]
      simp
    · rintro ⟨hi, he⟩
      refine ⟨hi, fun p hp => ?_⟩
      exact (ne_ok_true_iff_ok_false (htot p hp)).mp (he p hp)
  · intro s c p hp hpred hm
    obtain ⟨-, he⟩ := (songMatchesCriteria_ok_true_iff s c).mp hm
    have := (checkExcl_ok_true_iff s _).mp he p hp
    rw [hpred] at this
    simp at this

/-- Witness for C1: a song carrying tag 1, against the criteria
`{include: {tags: [1]}, exclude: {tags: [1]}}`, satisfies the iff's proviso
and is not matched (exclude dominance at a concrete input). -/
theorem c1_include_conjunction_exclude_disjunction_witness :
    songMatchesCriteria (taggedSong 1 [1])
        ⟨some [("tags", .plist [.pnum 1])], some [("tags", .plist [.pnum 1])]⟩
      ≠ .ok true ∧
    songMatchesCriteria (taggedSong 2 [])
        ⟨some [("tags", .plist [.pnum 1])], some []⟩ = .ok false := by
  constructor
  · exact c1_include_conjunction_exclude_disjunction.2 (taggedSong 1 [1])
      ⟨some [("tags", .plist [.pnum 1])], some [("tags", .plist [.pnum 1])]⟩
      ("tags", .plist [.pnum 1]) (List.mem_singleton.mpr rfl) (by decide)
  · have h := (c1_include_conjunction_exclude_disjunction.1 (taggedSong 2 [])
      ⟨some [("tags", .plist [.pnum 1])], some []⟩ (by intro p hp; simp at hp))
    have hne : songMatchesCriteria (taggedSong 2 [])
        ⟨some [("tags", .plist [.pnum 1])], some []⟩ ≠ .ok true := by
      intro heq
      obtain ⟨hi, -⟩ := h.mp heq
      have hone := hi ("tags", .plist [.pnum 1]) (List.mem_singleton.mpr rfl)
      revert hone
      decide
    exact (ne_ok_true_iff_ok_false (by decide)).mp hne

/-- **C4, counterexample** The claim that the matcher never raises is false:
at the concrete song with energy `1` and the criteria
`{include: {energy: {min: "loud"}}, exclude: {}}`, the comparison
`song_value < "loud"` raises a `TypeError` (modelled as `.error ()`). -/
theorem c4_matcher_raises_counterexample :
    songMatchesCriteria { blankSong 1 with energy := some 1 }
        ⟨some [("energy", .pdict [("min", .pstr "loud")])], some []⟩
      = .error () := by
  decide

/-- **C4, amended** The matcher never raises provided the constraint
payloads satisfy the conditions of the only branches that can raise:
entries of `tags` / `tag_groups` list payloads are hashable (those branches
call `set(values)`), entries of `paths` list payloads are strings, and
`min` / `max` bounds of numeric range payloads are numbers, booleans or
absent — `artists` / `albums` / `genres` / `folders` payloads never raise,
whatever their entries.  Under that proviso evaluation always returns a
Boolean; unrecognized field-kinds are non-matching, never an error; and
structural type mismatches are treated as non-matching for that
field-kind: a non-list payload for a list-type field-kind (e.g. a range
object where a list was expected) and a non-dict payload for a numeric
field-kind (e.g. a list where a range object was expected) both evaluate to
`ok false`.  Malformed entries INSIDE a payload of a raising branch
(non-string `paths` pattern, non-numeric range bound, unhashable
`tags` / `tag_groups` entry) do raise, contrary to the original claim. -/
theorem c4_matcher_totality_on_safe_payloads :
    (∀ (s : Song) (c : Criteria), criteriaSafe c = true →
      ∃ b, songMatchesCriteria s c = .ok b) ∧
    (∀ (s : Song) (f : String) (v : PyVal) (i : Bool), f ∉ recognizedFields →
      songMatchesFieldCriteria s f v i = .ok false) ∧
    (∀ (s : Song) (f : String) (v : PyVal) (i : Bool),
      f ∈ ["tags", "tag_groups", "artists", "albums", "genres", "folders", "paths"] →
      v.isList = false → songMatchesFieldCriteria s f v i = .ok false) ∧
    (∀ (s : Song) (f : String) (v : PyVal) (i : Bool),
      f ∈ ["energy", "valence", "danceability", "tempo", "duration", "year"] →
      v.isDict = false → songMatchesFieldCriteria s f v i = .ok false) := by
  refine ⟨?_, ?_, ?_, ?_⟩
  · exact fun s c h => songMatchesCriteria_ok s c h
  · exact fun s f v i h => songMatchesFieldCriteria_unrecognized s f v i h
  · exact fun s f v i hf hv => songMatchesFieldCriteria_list_mismatch s f v i hf hv
  · exact fun s f v i hf hv => songMatchesFieldCriteria_range_mismatch s f v i hf hv

/-- Witness for C4 (amended): a well-formed criteria — whose `artists`
payload even holds an unhashable nested list, harmless in that branch —
evaluates to a Boolean at a concrete song; the unknown field-kind `"mood"`
is non-matching there; and the two structural mismatches (a range object
under `tags`, a list under `energy`) are non-matching. -/
theorem c4_matcher_totality_on_safe_payloads_witness :
    (∃ b, songMatchesCriteria (taggedSong 1 [1])
        ⟨some [("tags", .plist [.pnum 1]),
               ("energy", .pdict [("min", .pnum 0)]),
               ("artists", .plist [.plist []])],
         some [("paths", .plist [.pstr "x"])]⟩ = .ok b) ∧
    songMatchesFieldCriteria (taggedSong 1 [1]) "mood" (.plist []) true
      = .ok false ∧
    songMatchesFieldCriteria (taggedSong 1 [1]) "tags" (.pdict []) true
      = .ok false ∧
    songMatchesFieldCriteria (taggedSong 1 [1]) "energy" (.plist []) false
      = .ok false := by
  refine ⟨?_, ?_, ?_, ?_⟩
  · exact c4_matcher_totality_on_safe_payloads.1 (taggedSong 1 [1])
      ⟨some [("tags", .plist [.pnum 1]),
             ("energy", .pdict [("min", .pnum 0)]),
             ("artists", .plist [.plist []])],
       some [("paths", .plist [.pstr "x"])]⟩ (by decide)
  · exact c4_matcher_totality_on_safe_payloads.2.1 (taggedSong 1 [1]) "mood"
      (.plist []) true (by decide)
  · exact c4_matcher_totality_on_safe_payloads.2.2.1 (taggedSong 1 [1]) "tags"
      (.pdict []) true (by decide) (by decide)
  · exact c4_matcher_totality_on_safe_payloads.2.2.2 (taggedSong 1 [1]) "energy"
      (.plist []) false (by decide) (by decide)

/-- **C5** The playlist's dynamic portion is the union over the criteria
list of the per-criteria matching sets: a song is collected exactly when it
is a library song matching at least one criteria; and with two criteria
matching only song 1 (tag 10) and only song 2 (tag 20), the dynamic set is
`{1, 2}`. -/
theorem c5_dynamic_union_across_criteria :
    (∀ (all_songs : List Song) (cs : List Criteria) (l : List Song),
      collectDynamic all_songs cs = .ok l →
      ∀ x, x ∈ l ↔ ∃ c ∈ cs, x ∈ all_songs ∧ songMatchesCriteria x c = .ok true) ∧
    collectDynamic [taggedSong 1 [10], taggedSong 2 [20]]
        [tagsCriteria [10], tagsCriteria [20]]
      = .ok [taggedSong 1 [10], taggedSong 2 [20]] ∧
    dynIds [taggedSong 1 [10], taggedSong 2 [20]] = ({1, 2} : Finset Int) := by
  refine ⟨fun all cs l h x => mem_collectDynamic h x, by decide, by decide⟩

/-- Witness for C5: at the two-criteria instance, membership of song 1 in
the collected list is equivalent to its matching one of the criteria. -/
theorem c5_dynamic_union_across_criteria_witness :
    taggedSong 1 [10] ∈ [taggedSong 1 [10], taggedSong 2 [20]] ↔
      ∃ c ∈ [tagsCriteria [10], tagsCriteria [20]],
        taggedSong 1 [10] ∈ [taggedSong 1 [10], taggedSong 2 [20]] ∧
        songMatchesCriteria (taggedSong 1 [10]) c = .ok true :=
  c5_dynamic_union_across_criteria.1
    [taggedSong 1 [10], taggedSong 2 [20]]
    [tagsCriteria [10], tagsCriteria [20]]
    [taggedSong 1 [10], taggedSong 2 [20]] (by decide) (taggedSong 1 [10])

/-- **C2** Under the primary-key invariant (pairwise-distinct library ids),
a successful materialization splits as `pre ++ post` where: the ids of `pre`
occur in `stored_order`'s own sequence (ids absent from the eligible set are
silently dropped, duplicate occurrences are suppressed); `post` is exactly
the eligible songs `stored_order` never mentions, in library order; and the
whole list is a permutation of the eligible songs — each emitted exactly
once.  At the concrete instance with `stored_order = [5, 6]`,
`manual = [5]` and a criteria matching only song 7, the output is
`[song5, song7]` (6 dropped, 7 appended). -/
theorem c2_materialize_order_and_eligibility :
    (∀ (all_songs : List Song) (pl : UnifiedPlaylist) (r : PlaylistSongsResult),
      (all_songs.map Song.id).Nodup →
      getPlaylistSongs all_songs pl = .ok r →
      ∃ pre post, r.songs = pre ++ post ∧
        List.Sublist (pre.map Song.id) pl.song_order ∧
        post = all_songs.filter
          (fun s => eligPred pl s && decide (s.id ∉ pl.song_order)) ∧
        List.Perm r.songs (all_songs.filter (eligPred pl))) ∧
    getPlaylistSongs [blankSong 5, blankSong 6, taggedSong 7 [100]]
        ⟨[blankSong 5], [tagsCriteria [100]], [5, 6]⟩
      = .ok { songs := [blankSong 5, taggedSong 7 [100]],
              manual_count := 1, dynamic_count := 1, total_count := 2 } := by
  constructor
  · intro all_songs pl r hnd h
    obtain ⟨dyn, hdyn, rfl⟩ := getPlaylistSongs_ok_elim h
    have hcong : ∀ s ∈ all_songs,
        (decide (s.id ∈ manualIds pl ∪ dynIds dyn) : Bool) = eligPred pl s := by
      intro s hs
      rw [eligPred, decide_eq_decide, Finset.mem_union]
      refine or_congr ?_ (mem_dynIds_iff hdyn hnd hs)
      rw [manualIds, List.mem_toFinset]
    have hkeys : ∀ p ∈ eligibleEntries all_songs (manualIds pl ∪ dynIds dyn),
        p.1 = p.2.id := by
      intro p hp
      obtain ⟨s, -, rfl⟩ := List.mem_map.mp hp
      rfl
    have hndkeys :
        ((eligibleEntries all_songs (manualIds pl ∪ dynIds dyn)).map
          Prod.fst).Nodup := by
      unfold eligibleEntries
      rw [List.map_map]
      have hc : (Prod.fst ∘ fun s : Song => (s.id, s)) = Song.id := rfl
      rw [hc]
      exact List.Nodup.sublist ((List.filter_sublist all_songs).map Song.id) hnd
    refine ⟨_, _, rfl, emitOrdered_fst_sublist _ _ hkeys, ?_, ?_⟩
    · rw [emitOrdered_snd_eq_filter _ _ hndkeys]
      unfold eligibleEntries
      rw [List.filter_map, List.map_map]
      have hc : (Prod.snd ∘ fun s : Song => (s.id, s)) = id := rfl
      rw [hc, List.map_id, List.filter_filter]
      apply List.filter_congr
      intro s hs
      show (decide (s.id ∉ pl.song_order) &&
        decide (s.id ∈ manualIds pl ∪ dynIds dyn)) = _
      rw [Bool.and_comm, hcong s hs]
    · have heq := List.filter_congr hcong
      exact (materializedSongs_perm all_songs pl dyn).trans
        (heq ▸ List.Perm.refl _)
  · decide

/-- Witness for C2: the general split-and-permutation statement applied at
the concrete stale-order instance. -/
theorem c2_materialize_order_and_eligibility_witness :
    ∃ pre post,
      (PlaylistSongsResult.mk [blankSong 5, taggedSong 7 [100]] 1 1 2).songs
        = pre ++ post ∧
      List.Sublist (pre.map Song.id)
        (UnifiedPlaylist.mk [blankSong 5] [tagsCriteria [100]] [5, 6]).song_order ∧
      post = [blankSong 5, blankSong 6, taggedSong 7 [100]].filter
        (fun s =>
          eligPred (UnifiedPlaylist.mk [blankSong 5] [tagsCriteria [100]] [5, 6]) s &&
          decide (s.id ∉ (UnifiedPlaylist.mk [blankSong 5] [tagsCriteria [100]]
            [5, 6]).song_order)) ∧
      List.Perm
        (PlaylistSongsResult.mk [blankSong 5, taggedSong 7 [100]] 1 1 2).songs
        ([blankSong 5, blankSong 6, taggedSong 7 [100]].filter
          (eligPred (UnifiedPlaylist.mk [blankSong 5] [tagsCriteria [100]] [5, 6]))) :=
  c2_materialize_order_and_eligibility.1
    [blankSong 5, blankSong 6, taggedSong 7 [100]]
    (UnifiedPlaylist.mk [blankSong 5] [tagsCriteria [100]] [5, 6])
    (PlaylistSongsResult.mk [blankSong 5, taggedSong 7 [100]] 1 1 2)
    (by decide) (by decide)

/-- **C6** The reported counts: manual count is the cardinality of the
manual id set, dynamic-only count is the cardinality of the dynamic id set
minus the manual id set, and total count is the cardinality of their union —
under the primary-key invariant and with every manual song present in the
library snapshot. -/
theorem c6_materialize_counts (all_songs : List Song) (pl : UnifiedPlaylist)
    (r : PlaylistSongsResult)
    (hnd : (all_songs.map Song.id).Nodup)
    (hman : ∀ s ∈ pl.manual_songs, s.id ∈ all_songs.map Song.id)
    (h : getPlaylistSongs all_songs pl = .ok r) :
    r.manual_count = (manualIds pl).card ∧
    r.dynamic_count
      = (dynamicIdSet all_songs pl.dynamic_criteria \ manualIds pl).card ∧
    r.total_count
      = (manualIds pl ∪ dynamicIdSet all_songs pl.dynamic_criteria).card := by
  obtain ⟨dyn, hdyn, rfl⟩ := getPlaylistSongs_ok_elim h
  refine ⟨rfl, ?_, ?_⟩
  · show (dynIds dyn).card - (manualIds pl ∩ dynIds dyn).card = _
    rw [dynIds_eq hdyn]
    have hcd := Finset.card_inter_add_card_sdiff
      (dynamicIdSet all_songs pl.dynamic_criteria) (manualIds pl)
    rw [Finset.inter_comm] at hcd
    omega
  · show (materializedSongs all_songs pl dyn).length = _
    have hsub : ∀ i ∈ manualIds pl ∪ dynIds dyn, i ∈ all_songs.map Song.id := by
      intro i hi
      rcases Finset.mem_union.mp hi with hi | hi
      · rw [manualIds, List.mem_toFinset, List.mem_map] at hi
        obtain ⟨s, hs, rfl⟩ := hi
        exact hman s hs
      · rw [dynIds, List.mem_toFinset, List.mem_map] at hi
        obtain ⟨y, hy, rfl⟩ := hi
        obtain ⟨c, -, hyall, -⟩ := (mem_collectDynamic hdyn y).mp hy
        exact List.mem_map_of_mem Song.id hyall
    unfold materializedSongs
    rw [emitOrdered_length]
    unfold eligibleEntries
    rw [List.length_map, filter_mem_length hnd hsub, dynIds_eq hdyn]

/-- Witness for C6: the counts at the concrete stale-order instance. -/
theorem c6_materialize_counts_witness :
    (PlaylistSongsResult.mk [blankSong 5, taggedSong 7 [100]] 1 1 2).manual_count
      = (manualIds (UnifiedPlaylist.mk [blankSong 5] [tagsCriteria [100]] [5, 6])).card ∧
    (PlaylistSongsResult.mk [blankSong 5, taggedSong 7 [100]] 1 1 2).dynamic_count
      = (dynamicIdSet [blankSong 5, blankSong 6, taggedSong 7 [100]]
            [tagsCriteria [100]] \
          manualIds (UnifiedPlaylist.mk [blankSong 5] [tagsCriteria [100]] [5, 6])).card ∧
    (PlaylistSongsResult.mk [blankSong 5, taggedSong 7 [100]] 1 1 2).total_count
      = (manualIds (UnifiedPlaylist.mk [blankSong 5] [tagsCriteria [100]] [5, 6]) ∪
          dynamicIdSet [blankSong 5, blankSong 6, taggedSong 7 [100]]
            [tagsCriteria [100]]).card :=
  c6_materialize_counts
    [blankSong 5, blankSong 6, taggedSong 7 [100]]
    (UnifiedPlaylist.mk [blankSong 5] [tagsCriteria [100]] [5, 6])
    (PlaylistSongsResult.mk [blankSong 5, taggedSong 7 [100]] 1 1 2)
    (by decide) (by decide) (by decide)

/-- **C10, counterexample** The claim that after `remove_manual_song` the id
is absent from `song_order` fails when `song_order` holds the id twice
(reachable through the reorder endpoint): `list.remove` deletes only the
first occurrence, so with `song_order = [5, 5]` the removal succeeds (song 5
leaves `manual_songs`) yet id 5 is still in `song_order`. -/
theorem c10_duplicate_order_counterexample :
    blankSong 5 ∉ (removeManualSong
        ⟨[blankSong 5], [], [5, 5]⟩ (blankSong 5)).manual_songs ∧
    (5 : Int) ∈ (removeManualSong
        ⟨[blankSong 5], [], [5, 5]⟩ (blankSong 5)).song_order := by
  decide

/-- **C10, amended** `remove_manual_song` drops the song from
`manual_songs` and deletes the FIRST occurrence of its id from
`song_order`; hence whenever each occurs at most once beforehand (which the
add endpoint maintains) the song and its id are absent afterwards.  A
formerly-manual song that still matches dynamically thereupon loses its
ordered position and is appended with the unordered leftovers, as the
concrete post-removal materialization shows. -/
theorem c10_remove_manual_song_removes :
    (∀ (pl : UnifiedPlaylist) (s : Song),
      pl.manual_songs.count s ≤ 1 →
      pl.song_order.count s.id ≤ 1 →
      s ∉ (removeManualSong pl s).manual_songs ∧
      s.id ∉ (removeManualSong pl s).song_order ∧
      (removeManualSong pl s).song_order = pl.song_order.erase s.id) ∧
    getPlaylistSongs [taggedSong 5 [100], blankSong 8]
        (removeManualSong
          ⟨[taggedSong 5 [100], blankSong 8], [tagsCriteria [100]], [8, 5]⟩
          (taggedSong 5 [100]))
      = .ok { songs := [blankSong 8, taggedSong 5 [100]],
              manual_count := 1, dynamic_count := 1, total_count := 2 } := by
  constructor
  · intro pl s hm ho
    refine ⟨?_, ?_, ?_⟩
    · show s ∉ (if s ∈ pl.manual_songs then pl.manual_songs.erase s
        else pl.manual_songs)
      by_cases hmem : s ∈ pl.manual_songs
      · rw [if_pos hmem, ← List.count_eq_zero]
        have h1 := List.count_erase_self s pl.manual_songs
        have h2 := List.count_pos_iff.mpr hmem
        omega
      · rw [if_neg hmem]
        exact hmem
    · show s.id ∉ (if s.id ∈ pl.song_order then pl.song_order.erase s.id
        else pl.song_order)
      by_cases hmem : s.id ∈ pl.song_order
      · rw [if_pos hmem, ← List.count_eq_zero]
        have h1 := List.count_erase_self s.id pl.song_order
        have h2 := List.count_pos_iff.mpr hmem
        omega
      · rw [if_neg hmem]
        exact hmem
    · show (if s.id ∈ pl.song_order then pl.song_order.erase s.id
        else pl.song_order) = pl.song_order.erase s.id
      by_cases hmem : s.id ∈ pl.song_order
      · rw [if_pos hmem]
      · rw [if_neg hmem, List.erase_of_not_mem hmem]
  · decide

/-- Witness for C10 (amended): removal at a duplicate-free playlist leaves
neither the song in `manual_songs` nor its id in `song_order`. -/
theorem c10_remove_manual_song_removes_witness :
    blankSong 5 ∉ (removeManualSong
        ⟨[blankSong 5], [], [5]⟩ (blankSong 5)).manual_songs ∧
    (5 : Int) ∉ (removeManualSong
        ⟨[blankSong 5], [], [5]⟩ (blankSong 5)).song_order ∧
    (removeManualSong ⟨[blankSong 5], [], [5]⟩ (blankSong 5)).song_order
      = ([5] : List Int).erase 5 :=
  c10_remove_manual_song_removes.1
    ⟨[blankSong 5], [], [5]⟩ (blankSong 5) (by decide) (by decide)

end SoundShare
